import Mathlib

set_option linter.unusedVariables false

/-!
Shallow embedding of the `@literallyjoel/router` controller framework
(`src/controller.ts`, `src/validation.ts`, `src/router.ts`,
`src/errors/ResponseError.ts`, `src/errors/GenericErrors.ts`) and proofs of
the specification claims about it.

Modelling conventions: JavaScript `undefined`/`null` become `Option`; a
thrown exception becomes `Except`; `Record<string, _>` objects become
association lists with last-assignment-wins insertion (`objInsert`); the
`JSON.stringify` of the runtime is modelled by a concrete encoder.  External
collaborators (session provider, schema validator, user run logic) are
modelled as total functions; a validator or user handler that itself throws
is modelled through an `Except` result (`Thrown`).
-/

/-! ## Error model (`src/errors/ResponseError.ts`, `src/errors/GenericErrors.ts`) -/

/-- Model of `FieldError`: `{ field: string; message: string }`. -/
structure FieldError where
  field : String
  message : String
deriving DecidableEq

/-- An opaque-to-the-pipeline JS data object, modelled as string-valued fields. -/
def JsObject : Type := List (String × String)

instance : DecidableEq JsObject := by unfold JsObject; infer_instance

/-- Model of `ResponseError` (`internalError` modelled as its message string). -/
structure ResponseError where
  name : String
  message : String
  responseCode : Nat
  data : Option JsObject := none
  fieldErrors : Option (List FieldError) := none
  internalError : Option String := none
deriving DecidableEq

/-- The optional override object accepted by each generated error class
constructor (`Partial<ResponseErrorConfig>`). -/
structure ErrOverrides where
  message : Option String := none
  responseCode : Option Nat := none
  data : Option JsObject := none
  fieldErrors : Option (List FieldError) := none
  internalError : Option String := none

/-- Model of `makeErrorClass` from `GenericErrors.ts`: defaults overridden
field by field with `??`. -/
def mkGenericError (name : String) (defMsg : String) (defCode : Nat)
    (o : ErrOverrides) : ResponseError :=
  { name := name
    message := o.message.getD defMsg
    responseCode := o.responseCode.getD defCode
    data := o.data
    fieldErrors := o.fieldErrors
    internalError := o.internalError }

def NotFoundError (o : ErrOverrides := {}) : ResponseError :=
  mkGenericError "NotFoundError" "Not Found" 404 o

def ConflictError (o : ErrOverrides := {}) : ResponseError :=
  mkGenericError "ConflictError" "Conflict" 409 o

def InternalServerError (o : ErrOverrides := {}) : ResponseError :=
  mkGenericError "InternalServerError" "Internal Server Error" 500 o

def UnauthorizedError (o : ErrOverrides := {}) : ResponseError :=
  mkGenericError "UnauthorizedError" "Unauthorized" 401 o

def ForbiddenError (o : ErrOverrides := {}) : ResponseError :=
  mkGenericError "ForbiddenError" "Forbidden" 403 o

def ValidationError (o : ErrOverrides := {}) : ResponseError :=
  mkGenericError "ValidationError" "Bad Request" 400 o

/-- Minimal model of `JSON.stringify` string escaping (quote and backslash). -/
def jsonEscape (s : String) : String :=
  String.join (s.toList.map fun c =>
    if c = '"' then "\\\"" else if c = '\\' then "\\\\" else String.singleton c)

def jsonStr (s : String) : String := "\"" ++ jsonEscape s ++ "\""

/-- Model of `JSON.stringify` on a string-valued object. -/
def jsonStringifyObj (o : JsObject) : String :=
  "\x7b" ++ String.intercalate ","
    (o.map fun p => jsonStr p.1 ++ ":" ++ jsonStr p.2) ++ "\x7d"

/-- Model of `JSON.stringify` on one field error. -/
def jsonStringifyFieldError (f : FieldError) : String :=
  "\x7b\"field\":" ++ jsonStr f.field ++ ",\"message\":" ++ jsonStr f.message ++ "\x7d"

/-- Model of `JSON.stringify` on a field-error array. -/
def jsonStringifyFieldErrors (fs : List FieldError) : String :=
  "[" ++ String.intercalate "," (fs.map jsonStringifyFieldError) ++ "]"

/-- The wire response produced by `Response.json(body, { status })`: an HTTP
status together with the ordered keys of the JSON body object. -/
structure HTTPResponse where
  status : Nat
  body : List (String × String)
deriving DecidableEq

/-- Model of `ResponseError.toResponse`: `message` always, `data` only when the data
object is set, `fields` only when the field errors are set (a JS object is
always truthy, and so is an empty array). -/
def ResponseError.toResponse (e : ResponseError) : HTTPResponse :=
  { status := e.responseCode
    body := [("message", e.message)]
      ++ (match e.data with
          | some d => [("data", jsonStringifyObj d)]
          | none => [])
      ++ (match e.fieldErrors with
          | some fs => [("fields", jsonStringifyFieldErrors fs)]
          | none => []) }

/-! ## Schema adapter (`src/validation.ts`) -/

/-- Model of a `PropertyKey` path segment: string or numeric key. -/
inductive PKey where
  | str (s : String)
  | num (n : Nat)
deriving DecidableEq

/-- A path entry is either a raw `PropertyKey` or a `PathSegment` object
carrying a `key` property. -/
inductive PathSeg where
  | plain (k : PKey)
  | obj (k : PKey)
deriving DecidableEq

/-- Key extraction: `typeof seg === "object" && "key" in seg ? seg.key : seg`. -/
def PathSeg.segKey : PathSeg → PKey
  | .plain k => k
  | .obj k => k

/-- One standard-schema issue; `message` is optional so that the code's
`i.message ?? "Invalid"` fallback is observable. -/
structure Issue where
  path : Option (List PathSeg) := none
  message : Option String := none
deriving DecidableEq

/-- Model of `formatPath`: empty or absent path renders as `""`; otherwise each
segment's key renders as `[n]` when numeric and as its string otherwise,
joined by `"."`. -/
def formatPath (path : Option (List PathSeg)) : String :=
  match path with
  | none => ""
  | some segs =>
    match segs with
    | [] => ""
    | _ => String.intercalate "."
        (segs.map fun seg =>
          match seg.segKey with
          | .num n => "[" ++ toString n ++ "]"
          | .str s => s)

/-- Model of `mapIssues`. -/
def mapIssues (issues : List Issue) : List FieldError :=
  issues.map fun i => { field := formatPath i.path, message := i.message.getD "Invalid" }

/-- The resolved outcome of a validator's `validate` call: `issues` when
truthy triggers the failure branch, otherwise `value` is returned (possibly
`undefined`). -/
structure SchemaOutcome (T : Type) where
  issues : Option (List Issue) := none
  value : Option T := none

/-- The `~standard` property: a version number and an optionally invocable
`validate`; the validator itself may throw (the `Except String`). -/
structure StandardProps (I T : Type) where
  version : Int
  validate : Option (I → Except String (SchemaOutcome T))

/-- A schema value: the `~standard` property may be absent. -/
structure Schema (I T : Type) where
  standard : Option (StandardProps I T)

/-- A thrown JS value: either a typed `ResponseError` or anything else
(carried as a message string). -/
inductive Thrown where
  | resp (e : ResponseError)
  | other (msg : String)
deriving DecidableEq

/-- Model of `parseStandardSchema`: probes the `~standard` capability (absent,
mis-versioned or non-invocable fails with the fixed `ValidationError`),
invokes the validator, turns issues into a `ValidationError` with mapped
field errors, and otherwise returns the outcome's value. -/
def parseStandardSchema {I T : Type} (input : I) (schema : Schema I T) :
    Except Thrown (Option T) :=
  match schema.standard with
  | none => .error (.resp (ValidationError
      { message := some "Schema does not implement StandardSchemaV1" }))
  | some props =>
    if props.version ≠ 1 then
      .error (.resp (ValidationError
        { message := some "Schema does not implement StandardSchemaV1" }))
    else
      match props.validate with
      | none => .error (.resp (ValidationError
          { message := some "Schema does not implement StandardSchemaV1" }))
      | some validate =>
        match validate input with
        | .error m => .error (.other m)
        | .ok resolved =>
          match resolved.issues with
          | some issues => .error (.resp (ValidationError
              { fieldErrors := some (mapIssues issues) }))
          | none => .ok resolved.value

/-- Hex digit test, matching `[0-9a-fA-F]`. -/
def isHexDigit (c : Char) : Bool :=
  c.isDigit || ('a' ≤ c && c ≤ 'f') || ('A' ≤ c && c ≤ 'F')

/-- Consume exactly `n` hex digits. -/
def hexRun : Nat → List Char → Option (List Char)
  | 0, rest => some rest
  | n + 1, c :: rest => if isHexDigit c then hexRun n rest else none
  | _ + 1, [] => none

/-- Consume a literal dash. -/
def dashRun : List Char → Option (List Char)
  | '-' :: rest => some rest
  | _ => none

/-- Consume one character satisfying `p`. -/
def charRun (p : Char → Bool) : List Char → Option (List Char)
  | c :: rest => if p c then some rest else none
  | [] => none

/-- Model of `validateUUID`: the canonical 8-4-4-4-12 pattern
`[0-9a-fA-F]{8}-[0-9a-fA-F]{4}-[1-5][0-9a-fA-F]{3}-[89abAB][0-9a-fA-F]{3}-[0-9a-fA-F]{12}`,
anchored at both ends. -/
def validateUUID (uuid : String) : Bool :=
  let step : Option (List Char) := do
    let r ← hexRun 8 uuid.toList
    let r ← dashRun r
    let r ← hexRun 4 r
    let r ← dashRun r
    let r ← charRun (fun c => '1' ≤ c && c ≤ '5') r
    let r ← hexRun 3 r
    let r ← dashRun r
    let r ← charRun (fun c => c = '8' || c = '9' || c = 'a' || c = 'b' || c = 'A' || c = 'B') r
    let r ← hexRun 3 r
    let r ← dashRun r
    let r ← hexRun 12 r
    if r.isEmpty then some r else none
  step.isSome

/-! ## Controller pipeline (`src/controller.ts`) -/

/-- The incoming request as the controller sees it: the (possibly absent)
path-parameter record, the headers, and the result of `request.json()`
(which may throw). `H` is the headers type, `I` the parsed-body type. -/
structure Request (H I : Type) where
  params : Option (String → Option String)
  headers : H
  jsonBody : Except Unit I

/-- Registration-time controller configuration (`ControllerConfig` plus the
constructor arguments of `BaseController`). The auth provider is its
`getSession` operation; `S` is the session type. -/
structure ControllerConfig (H I T S : Type) where
  requiresAuthentication : Bool
  inputSchema : Option (Schema I T) := none
  validateUUIDs : Option (List String) := none
  authProvider : Option (H → Option S) := none

/-- Per-request mutable controller state: `json`, `session`, `params`,
`responseError`, and the context's session slot. -/
structure ControllerState (T S : Type) where
  json : Option T := none
  session : Option S := none
  params : List (String × String) := []
  responseError : Option ResponseError := none
  ctxSession : Option S := none
deriving DecidableEq

/-- Association-list lookup (JS object property read). -/
def alookup {α β : Type} [DecidableEq α] : List (α × β) → α → Option β
  | [], _ => none
  | (k, v) :: rest, k' => if k' = k then some v else alookup rest k'

/-- JS object property assignment: updates the existing key in place, else
appends. -/
def objInsert {α β : Type} [DecidableEq α] (acc : List (α × β)) (k : α) (v : β) :
    List (α × β) :=
  if (alookup acc k).isSome then
    acc.map fun p => if p.1 = k then (k, v) else p
  else
    acc ++ [(k, v)]

/-- The `for (const key of keys)` loop of `_validateUUIDs`: `none` models the
early return that sets a `NotFoundError` (falsy raw value, i.e. absent or
empty, or a failing UUID check). -/
def validateUUIDsLoop (pm : String → Option String) :
    List String → List (String × String) → Option (List (String × String))
  | [], acc => some acc
  | k :: ks, acc =>
    match pm k with
    | none => none
    | some raw =>
      if raw = "" then none
      else if validateUUID raw then validateUUIDsLoop pm ks (objInsert acc k raw)
      else none

/-- Stage 1, `_validateUUIDs`: no declared keys or no params record sets
`params := {}` without error; otherwise every declared key must be present,
non-empty and UUID-valid, any failure setting a `NotFoundError` and clearing
`params`. -/
def stageValidateUUIDs {H I T S : Type} (cfg : ControllerConfig H I T S)
    (req : Request H I) (st : ControllerState T S) : ControllerState T S :=
  match cfg.validateUUIDs with
  | none => { st with params := [] }
  | some keys =>
    match req.params with
    | none => { st with params := [] }
    | some pm =>
      match validateUUIDsLoop pm keys [] with
      | none => { st with responseError := some (NotFoundError {}), params := [] }
      | some validated => { st with params := validated }

/-- Stage 2, `_checkAuthStatus`: note that it never consults a pending
`responseError`. -/
def stageCheckAuthStatus {H I T S : Type} (cfg : ControllerConfig H I T S)
    (req : Request H I) (st : ControllerState T S) : ControllerState T S :=
  match cfg.authProvider with
  | none =>
    if cfg.requiresAuthentication then
      { st with responseError := some (UnauthorizedError
          { message := some "Authentication provider not configured" }) }
    else st
  | some getSession =>
    let session := getSession req.headers
    if cfg.requiresAuthentication && session.isNone then
      { st with responseError := some (UnauthorizedError
          { message := some "You must be logged in to view this content" }) }
    else
      { st with ctxSession := session, session := session }

/-- Stage 3, `_validateJSONInput`: skipped without a schema or with a pending
error; a body-parse throw yields the "Invalid JSON body provided"
`ValidationError`; a `ResponseError` thrown by the adapter is stored as-is,
any other throw becomes the "Invalid input" `ValidationError`. -/
def stageValidateJSONInput {H I T S : Type} (cfg : ControllerConfig H I T S)
    (req : Request H I) (st : ControllerState T S) : ControllerState T S :=
  match cfg.inputSchema with
  | none => st
  | some schema =>
    if st.responseError.isSome then st
    else
      match req.jsonBody with
      | .error _ => { st with responseError := some (ValidationError
          { message := some "Invalid JSON body provided" }) }
      | .ok input =>
        match parseStandardSchema input schema with
        | .ok out => { st with json := out }
        | .error (.resp e) => { st with responseError := some e }
        | .error (.other _) => { st with responseError := some (ValidationError
            { message := some "Invalid input" }) }

/-- Stage 4, `_additionalValidation`: skipped unless a body value exists;
extra field errors are appended after the pending error's field errors, and
when the combined list is non-empty it is stored on the pending error or on
a freshly created `ValidationError`. -/
def stageAdditionalValidation {T S : Type} (additional : T → List FieldError)
    (st : ControllerState T S) : ControllerState T S :=
  match st.json with
  | none => st
  | some v =>
    let baseFieldErrors := match st.responseError with
      | some e => e.fieldErrors.getD []
      | none => []
    let additionalErrors := additional v
    let fieldErrors :=
      if additionalErrors.length > 0 then baseFieldErrors ++ additionalErrors
      else baseFieldErrors
    if fieldErrors.length > 0 then
      let e := st.responseError.getD (ValidationError {})
      { st with responseError := some { e with fieldErrors := some fieldErrors } }
    else st

/-- Model of `BaseController.init`: the four stages in their fixed order. -/
def initController {H I T S : Type} (cfg : ControllerConfig H I T S)
    (additional : T → List FieldError) (req : Request H I)
    (st0 : ControllerState T S) : ControllerState T S :=
  stageAdditionalValidation additional
    (stageValidateJSONInput cfg req
      (stageCheckAuthStatus cfg req
        (stageValidateUUIDs cfg req st0)))

/-- A response value as `invoke` produces it: either the rendering of a
`ResponseError` or a user-constructed response (tagged abstractly). -/
inductive JsResponse where
  | rendered (r : HTTPResponse)
  | userResp (tag : Nat)
deriving DecidableEq

/-- The user logic `run`: it may read and mutate the controller state (e.g.
set `responseError` through `failWith`), throw, and return a response. -/
def RunLogic (T S : Type) : Type :=
  ControllerState T S → Except Thrown (ControllerState T S × JsResponse)

/-- Model of `failWith`: records the error and returns its rendering. -/
def failWith {T S : Type} (st : ControllerState T S) (e : ResponseError) :
    ControllerState T S × JsResponse :=
  ({ st with responseError := some e }, .rendered e.toResponse)

/-- Model of `BaseController.respond`: a pending error renders immediately; otherwise
`run` executes, and an error it left behind wins over its returned
response. -/
def respond {T S : Type} (run : RunLogic T S) (st : ControllerState T S) :
    Except Thrown JsResponse :=
  match st.responseError with
  | some e => .ok (.rendered e.toResponse)
  | none =>
    match run st with
    | .error t => .error t
    | .ok (st1, resp) =>
      match st1.responseError with
      | some e => .ok (.rendered e.toResponse)
      | none => .ok resp

/-- Model of `BaseController.invoke`: `(await this.init()).respond()`. -/
def invoke {H I T S : Type} (cfg : ControllerConfig H I T S)
    (additional : T → List FieldError) (run : RunLogic T S)
    (req : Request H I) (st0 : ControllerState T S) : Except Thrown JsResponse :=
  respond run (initController cfg additional req st0)

/-- The catch block of the route handler in `router.ts`: a thrown
`ResponseError` renders itself, anything else renders a fresh
`InternalServerError` (the cause is only logged, never rendered). -/
def routerBoundary (result : Except Thrown JsResponse) : JsResponse :=
  match result with
  | .ok r => r
  | .error (.resp e) => .rendered e.toResponse
  | .error (.other _) => .rendered ((InternalServerError {}).toResponse)

/-- The fresh per-request controller state: every field unset except the
context's session slot, which the route handler populates from the router's
own session lookup before constructing the controller. -/
def initialState {H T S : Type} (routerAuth : Option (H → Option S)) (headers : H) :
    ControllerState T S :=
  { ctxSession := match routerAuth with
      | some getSession => getSession headers
      | none => none }

/-- The whole per-request handler built by `parseRoutes`: the router's own
session lookup populates the context, the controller is constructed with a
fresh state and invoked, and the boundary catches everything thrown. -/
def handleRequest {H I T S : Type} (routerAuth : Option (H → Option S))
    (cfg : ControllerConfig H I T S) (additional : T → List FieldError)
    (run : RunLogic T S) (req : Request H I) : JsResponse :=
  routerBoundary (invoke cfg additional run req (initialState routerAuth req.headers))

/-! ## Route discovery (`src/router.ts`) -/

/-- The seven recognized HTTP methods. -/
inductive Method where
  | get | post | patch | put | delete | head | options
deriving DecidableEq

def Method.lower : Method → String
  | .get => "get" | .post => "post" | .patch => "patch" | .put => "put"
  | .delete => "delete" | .head => "head" | .options => "options"

/-- One discovered route file: route path, handler module location, method. -/
structure Discovered where
  path : String
  handler : String
  method : Method
deriving DecidableEq

/-- The (path, method) pair a discovered file would register. -/
def routeKey (d : Discovered) : String × Method := (d.path, d.method)

/-- The registration loop of `parseRoutes`: the handler bound for each entry
is modelled by its module location string; a duplicate (path, method)
registration throws. -/
def parseRoutesLoop : List Discovered → List (String × List (Method × String)) →
    Except String (List (String × List (Method × String)))
  | [], routes => .ok routes
  | d :: rest, routes =>
    let route := (alookup routes d.path).getD []
    if (alookup route d.method).isSome then
      .error ("Router " ++ d.method.lower ++ " " ++ d.path ++ " is redefined")
    else
      parseRoutesLoop rest (objInsert routes d.path (route ++ [(d.method, d.handler)]))

/-- Model of `parseRoutes` route-table construction (module loading elided: each
handler is represented by its module location). -/
def parseRoutes (discovered : List Discovered) :
    Except String (List (String × List (Method × String))) :=
  parseRoutesLoop discovered []

def Except.isErr {ε α : Type} : Except ε α → Bool
  | .error _ => true
  | .ok _ => false

/-! ## Spec-side renderings (for refinement comparisons) -/

/-- Modelled from the spec's words ("each issue's path segments are joined
into a single dotted/bracketed field string (numeric segments render as
`[n]`, others as their stringified key, joined by `.`); empty path renders
as an empty field string"): the field string of a path segment list. -/
def specFieldString (segs : List PathSeg) : String :=
  String.intercalate "." (segs.map fun seg =>
    match seg.segKey with
    | .num n => "[" ++ toString n ++ "]"
    | .str s => s)

/-- Modelled from the spec's words: the field error a single issue
contributes, its field string computed from the issue's (possibly absent)
path and its message defaulting to "Invalid". -/
def specIssueFieldError (i : Issue) : FieldError :=
  { field := specFieldString (i.path.getD []), message := i.message.getD "Invalid" }

/-- Whether the authentication stage passes without setting an error (used
as a hypothesis where a claim presumes authentication succeeds). -/
def authOk {H I T S : Type} (cfg : ControllerConfig H I T S) (req : Request H I) : Bool :=
  match cfg.authProvider with
  | none => !cfg.requiresAuthentication
  | some getSession => !cfg.requiresAuthentication || (getSession req.headers).isSome

/-- Whether a declared parameter fails stage 1 for `pm`: absent, empty, or
not a UUID. -/
def paramBad (pm : String → Option String) (k : String) : Bool :=
  match pm k with
  | none => true
  | some raw => raw = "" || !validateUUID raw

/-- The adapter capability probe failing: `~standard` absent, mis-versioned,
or `validate` not invocable. -/
def adapterBad {I T : Type} (schema : Schema I T) : Bool :=
  match schema.standard with
  | none => true
  | some props => props.version ≠ 1 || props.validate.isNone

/-- Whether stage 1 will set a `NotFoundError` for this configuration and
request. -/
def paramCheckFails {H I T S : Type} (cfg : ControllerConfig H I T S)
    (req : Request H I) : Bool :=
  match cfg.validateUUIDs with
  | none => false
  | some keys =>
    match req.params with
    | none => false
    | some pm => (validateUUIDsLoop pm keys []).isNone

/-! ## Helper lemmas -/

theorem alookup_append {α β : Type} [DecidableEq α] (l1 l2 : List (α × β)) (k : α) :
    alookup (l1 ++ l2) k =
      match alookup l1 k with
      | some v => some v
      | none => alookup l2 k := by
  induction l1 with
  | nil => simp [alookup]
  | cons p rest ih =>
    by_cases h : k = p.1
    · simp [alookup, h]
    · simp [alookup, h, ih]

theorem alookup_map_ne {α β : Type} [DecidableEq α] (l : List (α × β)) (k k' : α) (v : β)
    (h : k' ≠ k) :
    alookup (l.map fun p => if p.1 = k then (k, v) else p) k' = alookup l k' := by
  induction l with
  | nil => simp [alookup]
  | cons p rest ih =>
    obtain ⟨k0, v0⟩ := p
    simp only [List.map_cons]
    by_cases hp : k0 = k
    · rw [if_pos hp]
      have h2 : k' ≠ k0 := by rw [hp]; exact h
      simp only [alookup]
      rw [if_neg h, if_neg h2]
      exact ih
    · rw [if_neg hp]
      simp only [alookup]
      by_cases hk0 : k' = k0
      · rw [if_pos hk0, if_pos hk0]
      · rw [if_neg hk0, if_neg hk0]
        exact ih

theorem alookup_map_self {α β : Type} [DecidableEq α] (l : List (α × β)) (k : α) (v : β)
    (hf : (alookup l k).isSome) :
    alookup (l.map fun p => if p.1 = k then (k, v) else p) k = some v := by
  induction l with
  | nil => simp [alookup] at hf
  | cons p rest ih =>
    obtain ⟨k0, v0⟩ := p
    simp only [List.map_cons]
    by_cases hp : k0 = k
    · rw [if_pos hp]
      simp only [alookup]
      simp
    · rw [if_neg hp]
      simp only [alookup]
      have h2 : k ≠ k0 := fun hh => hp hh.symm
      rw [if_neg h2]
      simp only [alookup] at hf
      rw [if_neg h2] at hf
      exact ih hf

theorem alookup_objInsert {α β : Type} [DecidableEq α] (acc : List (α × β)) (k k' : α) (v : β) :
    alookup (objInsert acc k v) k' = if k' = k then some v else alookup acc k' := by
  by_cases hf : (alookup acc k).isSome
  · rw [objInsert, if_pos hf]
    by_cases hk : k' = k
    · subst hk; rw [if_pos rfl]; exact alookup_map_self acc k' v hf
    · rw [if_neg hk]; exact alookup_map_ne acc k k' v hk
  · rw [objInsert, if_neg hf, alookup_append]
    by_cases hk : k' = k
    · subst hk
      have hnone : alookup acc k' = none := by
        cases h : alookup acc k' with
        | none => rfl
        | some w => rw [h] at hf; simp at hf
      rw [hnone, if_pos rfl]
      simp [alookup]
    · rw [if_neg hk]
      cases h : alookup acc k' with
      | some w => simp
      | none => simp [alookup, hk]

theorem stageValidateUUIDs_json {H I T S : Type} (cfg : ControllerConfig H I T S)
    (req : Request H I) (st : ControllerState T S) :
    (stageValidateUUIDs cfg req st).json = st.json := by
  unfold stageValidateUUIDs
  repeat' split
  all_goals rfl

theorem stageValidateUUIDs_error_of_nofail {H I T S : Type}
    (cfg : ControllerConfig H I T S) (req : Request H I) (st : ControllerState T S)
    (h : paramCheckFails cfg req = false) :
    (stageValidateUUIDs cfg req st).responseError = st.responseError := by
  unfold paramCheckFails at h
  unfold stageValidateUUIDs
  cases hc : cfg.validateUUIDs with
  | none => rfl
  | some keys =>
    cases hp : req.params with
    | none => rfl
    | some pm =>
      rw [hc, hp] at h
      simp only [] at h
      cases hl : validateUUIDsLoop pm keys [] with
      | none => simp [hl] at h
      | some res => simp [hl]

theorem stageCheckAuthStatus_json {H I T S : Type} (cfg : ControllerConfig H I T S)
    (req : Request H I) (st : ControllerState T S) :
    (stageCheckAuthStatus cfg req st).json = st.json := by
  unfold stageCheckAuthStatus
  cases cfg.authProvider with
  | none => by_cases h : cfg.requiresAuthentication <;> simp [h]
  | some getSession =>
      by_cases h : (cfg.requiresAuthentication && (getSession req.headers).isNone) = true <;>
        simp [h]

theorem stageCheckAuthStatus_params {H I T S : Type} (cfg : ControllerConfig H I T S)
    (req : Request H I) (st : ControllerState T S) :
    (stageCheckAuthStatus cfg req st).params = st.params := by
  unfold stageCheckAuthStatus
  cases cfg.authProvider with
  | none => by_cases h : cfg.requiresAuthentication <;> simp [h]
  | some getSession =>
      by_cases h : (cfg.requiresAuthentication && (getSession req.headers).isNone) = true <;>
        simp [h]

theorem stageCheckAuthStatus_of_authOk {H I T S : Type} (cfg : ControllerConfig H I T S)
    (req : Request H I) (st : ControllerState T S) (h : authOk cfg req = true) :
    (stageCheckAuthStatus cfg req st).responseError = st.responseError
    ∧ (stageCheckAuthStatus cfg req st).json = st.json
    ∧ (stageCheckAuthStatus cfg req st).params = st.params := by
  unfold authOk at h
  unfold stageCheckAuthStatus
  cases hc : cfg.authProvider with
  | none =>
    rw [hc] at h
    simp only [Bool.not_eq_true'] at h
    simp [h]
  | some getSession =>
    rw [hc] at h
    have : (cfg.requiresAuthentication && (getSession req.headers).isNone) = false := by
      cases hr : cfg.requiresAuthentication with
      | false => simp
      | true =>
        rw [hr] at h
        simp at h
        simp [h]
    simp [this]

theorem stageValidateJSONInput_skip {H I T S : Type} (cfg : ControllerConfig H I T S)
    (req : Request H I) (st : ControllerState T S) (h : st.responseError.isSome) :
    stageValidateJSONInput cfg req st = st := by
  unfold stageValidateJSONInput
  cases hc : cfg.inputSchema with
  | none => rfl
  | some schema => simp [h]

theorem stageValidateJSONInput_params {H I T S : Type} (cfg : ControllerConfig H I T S)
    (req : Request H I) (st : ControllerState T S) :
    (stageValidateJSONInput cfg req st).params = st.params := by
  unfold stageValidateJSONInput
  repeat' split
  all_goals rfl

theorem stageAdditionalValidation_skip {T S : Type} (additional : T → List FieldError)
    (st : ControllerState T S) (h : st.json = none) :
    stageAdditionalValidation additional st = st := by
  unfold stageAdditionalValidation
  rw [h]

theorem stageAdditionalValidation_params {T S : Type} (additional : T → List FieldError)
    (st : ControllerState T S) :
    (stageAdditionalValidation additional st).params = st.params := by
  unfold stageAdditionalValidation
  repeat' split
  all_goals simp [apply_ite]

theorem stageCheckAuthStatus_noProvider {H I T S : Type} (cfg : ControllerConfig H I T S)
    (req : Request H I) (st : ControllerState T S)
    (hreq : cfg.requiresAuthentication = true) (hprov : cfg.authProvider = none) :
    stageCheckAuthStatus cfg req st = { st with responseError := some (UnauthorizedError
      { message := some "Authentication provider not configured" }) } := by
  unfold stageCheckAuthStatus
  rw [hprov]
  simp [hreq]

theorem stageCheckAuthStatus_noSession {H I T S : Type} (cfg : ControllerConfig H I T S)
    (req : Request H I) (st : ControllerState T S) (getSession : H → Option S)
    (hreq : cfg.requiresAuthentication = true) (hprov : cfg.authProvider = some getSession)
    (hs : getSession req.headers = none) :
    stageCheckAuthStatus cfg req st = { st with responseError := some (UnauthorizedError
      { message := some "You must be logged in to view this content" }) } := by
  unfold stageCheckAuthStatus
  rw [hprov]
  simp [hreq, hs]

theorem handleRequest_error_after_auth {H I T S : Type}
    (routerAuth : Option (H → Option S)) (cfg : ControllerConfig H I T S)
    (additional : T → List FieldError) (run : RunLogic T S) (req : Request H I)
    (e : ResponseError)
    (he : (stageCheckAuthStatus cfg req (stageValidateUUIDs cfg req
        (initialState routerAuth req.headers))).responseError = some e) :
    handleRequest routerAuth cfg additional run req = .rendered e.toResponse := by
  unfold handleRequest invoke initController
  set st0 : ControllerState T S := initialState routerAuth req.headers with hst0
  have hjson0 : st0.json = none := rfl
  set st2 := stageCheckAuthStatus cfg req (stageValidateUUIDs cfg req st0) with hst2
  have hjson2 : st2.json = none := by
    rw [hst2, stageCheckAuthStatus_json, stageValidateUUIDs_json, hjson0]
  rw [stageValidateJSONInput_skip cfg req st2 (by rw [he]; rfl)]
  rw [stageAdditionalValidation_skip additional st2 hjson2]
  unfold respond
  rw [he]
  rfl

theorem formatPath_eq_spec (path : Option (List PathSeg)) :
    formatPath path = specFieldString (path.getD []) := by
  cases path with
  | none => rfl
  | some segs => cases segs with
    | nil => rfl
    | cons s rest => rfl

theorem validateUUIDsLoop_none_of_bad (pm : String → Option String) (keys : List String)
    (k : String) (hk : k ∈ keys) (hbad : paramBad pm k = true) :
    ∀ acc, validateUUIDsLoop pm keys acc = none := by
  induction keys with
  | nil => cases hk
  | cons k0 rest ih =>
    intro acc
    unfold validateUUIDsLoop
    rcases List.mem_cons.mp hk with hk0 | hkrest
    · subst hk0
      unfold paramBad at hbad
      cases hp : pm k with
      | none => rfl
      | some raw =>
        rw [hp] at hbad
        by_cases hraw : raw = ""
        · simp [hraw]
        · have hv : validateUUID raw = false := by
            rcases Bool.or_eq_true_iff.mp hbad with h1 | h2
            · exact absurd (by simpa using h1) hraw
            · simpa using h2
          simp [hraw, hv]
    · cases hp : pm k0 with
      | none => rfl
      | some raw =>
        by_cases hraw : raw = ""
        · simp [hraw]
        · by_cases hv : validateUUID raw
          · simp only [hv, hraw]
            simp only [if_false, if_true, ite_false, ite_true]
            exact ih hkrest _
          · simp [hraw, hv]

theorem validateUUIDsLoop_good (pm : String → Option String) (keys : List String)
    (hgood : ∀ k ∈ keys, paramBad pm k = false) :
    ∀ acc, ∃ res, validateUUIDsLoop pm keys acc = some res
      ∧ ∀ k', alookup res k' = if k' ∈ keys then pm k' else alookup acc k' := by
  induction keys with
  | nil =>
    intro acc
    exact ⟨acc, rfl, by intro k'; simp⟩
  | cons k0 rest ih =>
    intro acc
    have h0 : paramBad pm k0 = false := hgood k0 (List.mem_cons_self k0 rest)
    unfold paramBad at h0
    cases hp : pm k0 with
    | none => rw [hp] at h0; simp at h0
    | some raw =>
      rw [hp] at h0
      simp only [Bool.or_eq_false_iff] at h0
      have hraw : raw ≠ "" := by
        intro hh
        have := h0.1
        simp [hh] at this
      have hv : validateUUID raw = true := by
        have := h0.2
        simpa using this
      obtain ⟨res, hres, hchar⟩ := ih (fun k hk => hgood k (List.mem_cons_of_mem _ hk))
        (objInsert acc k0 raw)
      refine ⟨res, ?_, ?_⟩
      · unfold validateUUIDsLoop
        simp only [hp, hraw, hv]
        simp only [if_false, if_true, ite_false, ite_true]
        exact hres
      · intro k'
        rw [hchar k', alookup_objInsert]
        by_cases hmem : k' ∈ rest
        · simp [hmem]
        · rw [if_neg hmem]
          by_cases hk0 : k' = k0
          · subst hk0
            simp [hp]
          · simp [hk0, hmem]

theorem stageValidateUUIDs_fail {H I T S : Type} (cfg : ControllerConfig H I T S)
    (req : Request H I) (st : ControllerState T S)
    (keys : List String) (pm : String → Option String)
    (hkeys : cfg.validateUUIDs = some keys) (hpm : req.params = some pm)
    (hloop : validateUUIDsLoop pm keys [] = none) :
    stageValidateUUIDs cfg req st
      = { st with responseError := some (NotFoundError {}), params := [] } := by
  unfold stageValidateUUIDs
  rw [hkeys, hpm]
  simp [hloop]

theorem stageValidateUUIDs_ok {H I T S : Type} (cfg : ControllerConfig H I T S)
    (req : Request H I) (st : ControllerState T S)
    (keys : List String) (pm : String → Option String) (res : List (String × String))
    (hkeys : cfg.validateUUIDs = some keys) (hpm : req.params = some pm)
    (hloop : validateUUIDsLoop pm keys [] = some res) :
    stageValidateUUIDs cfg req st = { st with params := res } := by
  unfold stageValidateUUIDs
  rw [hkeys, hpm]
  simp [hloop]

theorem initController_params {H I T S : Type} (cfg : ControllerConfig H I T S)
    (additional : T → List FieldError) (req : Request H I) (st0 : ControllerState T S) :
    (initController cfg additional req st0).params
      = (stageValidateUUIDs cfg req st0).params := by
  unfold initController
  rw [stageAdditionalValidation_params, stageValidateJSONInput_params,
    stageCheckAuthStatus_params]

/-! ## Claims -/

def cfgC1 : ControllerConfig Nat Nat Nat Nat :=
  { requiresAuthentication := true, validateUUIDs := some ["id"] }

def reqC1 : Request Nat Nat :=
  { params := some (fun _ => some "bad"), headers := 0, jsonBody := .error () }

def runNoop : RunLogic Nat Nat := fun st => .ok (st, .userResp 0)

def addNone : Nat → List FieldError := fun _ => []

/-- C1 (counterexample): with a declared UUID parameter whose value is not a
UUID, stage 1 sets a `NotFoundError`; yet on a handler that requires
authentication with no provider configured, stage 2 overwrites that pending
error and the produced response renders the Unauthorized error (401), not
the first error set (404). -/
theorem C1_counterexample :
    (stageValidateUUIDs cfgC1 reqC1 (initialState none reqC1.headers)).responseError
      = some (NotFoundError {})
    ∧ handleRequest none cfgC1 addNone runNoop reqC1
      = .rendered ((UnauthorizedError
          { message := some "Authentication provider not configured" }).toResponse)
    ∧ ((NotFoundError {}).toResponse).status = 404
    ∧ ((UnauthorizedError
          { message := some "Authentication provider not configured" }).toResponse).status = 401
    ∧ (UnauthorizedError
          { message := some "Authentication provider not configured" }).toResponse
      ≠ (NotFoundError {}).toResponse := by
  refine ⟨by decide, by decide, by decide, by decide, by decide⟩

/-- C1 (amended): the pipeline stages run in the fixed order ParamValidation,
Authentication, BodyValidation, ExtraValidation, Dispatch; once an error is
pending, BodyValidation leaves the state unchanged and ExtraValidation at
most appends field errors to the pending error (preserving its identity and
the order of existing field errors); the Authentication stage, however, does
not consult the pending error: it either preserves it or overwrites it with
one of its two Unauthorized errors when authentication fails, so the
produced response renders the first error set except when Authentication
overwrites a ParamValidation error. -/
theorem C1_pipeline_order_amended {H I T S : Type} (cfg : ControllerConfig H I T S)
    (additional : T → List FieldError) (req : Request H I)
    (st : ControllerState T S) (e : ResponseError)
    (h : st.responseError = some e) :
    (∀ st1 : ControllerState T S, initController cfg additional req st1
        = stageAdditionalValidation additional (stageValidateJSONInput cfg req
            (stageCheckAuthStatus cfg req (stageValidateUUIDs cfg req st1))))
    ∧ stageValidateJSONInput cfg req st = st
    ∧ ((stageAdditionalValidation additional st).responseError = some e
        ∨ ∃ extra, (stageAdditionalValidation additional st).responseError
            = some { e with fieldErrors := some (e.fieldErrors.getD [] ++ extra) })
    ∧ ((stageCheckAuthStatus cfg req st).responseError = some e
        ∨ (stageCheckAuthStatus cfg req st).responseError = some (UnauthorizedError
            { message := some "Authentication provider not configured" })
        ∨ (stageCheckAuthStatus cfg req st).responseError = some (UnauthorizedError
            { message := some "You must be logged in to view this content" })) := by
  refine ⟨fun st1 => rfl, stageValidateJSONInput_skip cfg req st (by rw [h]; rfl), ?_, ?_⟩
  · unfold stageAdditionalValidation
    cases hjson : st.json with
    | none => exact Or.inl h
    | some v =>
      rw [h]
      simp only [Option.getD_some]
      by_cases hadd : (additional v).length > 0
      · rw [if_pos hadd]
        have hlen : (e.fieldErrors.getD [] ++ additional v).length > 0 := by
          rw [List.length_append]; omega
        rw [if_pos hlen]
        exact Or.inr ⟨additional v, rfl⟩
      · rw [if_neg hadd]
        by_cases hbase : (e.fieldErrors.getD []).length > 0
        · rw [if_pos hbase]
          refine Or.inr ⟨[], ?_⟩
          simp
        · rw [if_neg hbase]
          exact Or.inl h
  · unfold stageCheckAuthStatus
    cases hc : cfg.authProvider with
    | none =>
      by_cases hr : cfg.requiresAuthentication
      · simp only [hr, if_true]
        exact Or.inr (Or.inl trivial)
      · simp only [hr, if_false]
        exact Or.inl h
    | some getSession =>
      by_cases hcond : (cfg.requiresAuthentication && (getSession req.headers).isNone) = true
      · simp only [hcond, if_true]
        exact Or.inr (Or.inr trivial)
      · simp only [hcond, if_false]
        exact Or.inl h

def stC1w : ControllerState Nat Nat := { responseError := some (NotFoundError {}) }

/-- C1 (witness): the amended theorem applied at a state already carrying a
`NotFoundError`. -/
theorem C1_pipeline_order_witness :
    stC1w.responseError = some (NotFoundError {})
    ∧ stageValidateJSONInput cfgC1 reqC1 stC1w = stC1w :=
  ⟨rfl, (C1_pipeline_order_amended cfgC1 addNone reqC1 stC1w (NotFoundError {}) rfl).2.1⟩

def cfgC2x : ControllerConfig Nat Nat Nat Nat :=
  { requiresAuthentication := false, validateUUIDs := some ["id"] }

def reqC2x : Request Nat Nat :=
  { params := none, headers := 0, jsonBody := .error () }

/-- C2 (counterexample): a handler declaring the UUID parameter `"id"` but a
request whose path-parameter map is absent entirely: every declared
parameter is missing, yet no error is set, the response is the user logic's
response (not NotFound/404), and the validated params expose no keys at
all. -/
theorem C2_counterexample :
    cfgC2x.validateUUIDs = some ["id"]
    ∧ (reqC2x.params).isNone = true
    ∧ (initController cfgC2x addNone reqC2x (initialState none reqC2x.headers)).responseError
        = none
    ∧ (initController cfgC2x addNone reqC2x (initialState none reqC2x.headers)).params = []
    ∧ handleRequest none cfgC2x addNone runNoop reqC2x = .userResp 0 := by
  refine ⟨by decide, by decide, by decide, by decide, by decide⟩

/-- C2 (amended): provided the request actually carries a path-parameter map
(when the map is absent the code skips UUID validation entirely) and the
authentication stage does not itself fail, a declared parameter that is
missing from the map or not a conforming UUID makes the response
NotFound/404 with no field errors; when all declared parameters conform,
the controller's validated params expose exactly the declared keys, each
bound to its raw request value. -/
theorem C2_uuid_params_amended {H I T S : Type} (routerAuth : Option (H → Option S))
    (cfg : ControllerConfig H I T S) (additional : T → List FieldError)
    (run : RunLogic T S) (req : Request H I)
    (keys : List String) (pm : String → Option String)
    (hkeys : cfg.validateUUIDs = some keys)
    (hpm : req.params = some pm)
    (hauth : authOk cfg req = true) :
    ((∃ k ∈ keys, paramBad pm k = true) →
        handleRequest routerAuth cfg additional run req
          = .rendered ((NotFoundError {}).toResponse)
        ∧ ((NotFoundError {}).toResponse).status = 404
        ∧ (NotFoundError {}).fieldErrors = none
        ∧ alookup ((NotFoundError {}).toResponse).body "fields" = none)
    ∧ ((∀ k ∈ keys, paramBad pm k = false) →
        ∃ res, validateUUIDsLoop pm keys [] = some res
          ∧ (∀ st0 : ControllerState T S,
              (initController cfg additional req st0).params = res)
          ∧ (∀ k', (alookup res k').isSome = true ↔ k' ∈ keys)
          ∧ (∀ k ∈ keys, alookup res k = pm k)) := by
  constructor
  · rintro ⟨k, hk, hbad⟩
    have hloop := validateUUIDsLoop_none_of_bad pm keys k hk hbad []
    refine ⟨?_, by decide, by decide, by decide⟩
    apply handleRequest_error_after_auth
    rw [(stageCheckAuthStatus_of_authOk cfg req _ hauth).1]
    rw [stageValidateUUIDs_fail cfg req _ keys pm hkeys hpm hloop]
  · intro hgood
    obtain ⟨res, hres, hchar⟩ := validateUUIDsLoop_good pm keys hgood []
    refine ⟨res, hres, ?_, ?_, ?_⟩
    · intro st0
      rw [initController_params, stageValidateUUIDs_ok cfg req st0 keys pm res hkeys hpm hres]
    · intro k'
      rw [hchar k']
      by_cases hmem : k' ∈ keys
      · simp only [hmem, if_true, iff_true]
        have := hgood k' hmem
        unfold paramBad at this
        cases hp : pm k' with
        | none => rw [hp] at this; simp at this
        | some raw => simp
      · simp [hmem, alookup]
    · intro k hk
      rw [hchar k]
      simp [hk]

def pmC2w : String → Option String := fun k => if k = "id" then some "nope" else none

def reqC2w : Request Nat Nat :=
  { params := some pmC2w, headers := 0, jsonBody := .error () }

/-- C2 (witness): the amended theorem applied to a request whose declared
`"id"` parameter is present but not a UUID. -/
theorem C2_uuid_params_witness :
    authOk cfgC2x reqC2w = true
    ∧ paramBad pmC2w "id" = true
    ∧ handleRequest none cfgC2x addNone runNoop reqC2w
        = .rendered ((NotFoundError {}).toResponse) := by
  refine ⟨by decide, by decide, ?_⟩
  exact ((C2_uuid_params_amended none cfgC2x addNone runNoop reqC2w ["id"] pmC2w rfl rfl
    (by decide)).1 ⟨"id", by decide, by decide⟩).1

/-- C3: with a declared schema and a conforming validator whose outcome
carries N issues (N ≥ 1), the body-validation stage raises a single
Validation error whose field errors are exactly N entries in issue order,
each field string being the issue's path segments joined by `"."` with
numeric segments rendered as `[n]` and others as their stringified key, an
empty or absent path rendering as the empty string. -/
theorem C3_issue_field_errors {H I T S : Type} (cfg : ControllerConfig H I T S)
    (req : Request H I) (st : ControllerState T S)
    (schema : Schema I T) (props : StandardProps I T)
    (f : I → Except String (SchemaOutcome T)) (input : I)
    (outcome : SchemaOutcome T) (issues : List Issue)
    (hschema : cfg.inputSchema = some schema)
    (hnoerr : st.responseError = none)
    (hbody : req.jsonBody = .ok input)
    (hstd : schema.standard = some props)
    (hver : props.version = 1)
    (hval : props.validate = some f)
    (hout : f input = .ok outcome)
    (hissues : outcome.issues = some issues)
    (hne : issues ≠ []) :
    (stageValidateJSONInput cfg req st).responseError
      = some (ValidationError { fieldErrors := some (issues.map specIssueFieldError) })
    ∧ (issues.map specIssueFieldError).length = issues.length
    ∧ (ValidationError
        { fieldErrors := some (issues.map specIssueFieldError) }).responseCode = 400 := by
  have hfe : mapIssues issues = issues.map specIssueFieldError := by
    unfold mapIssues specIssueFieldError
    simp only [formatPath_eq_spec]
  have hparse : parseStandardSchema input schema
      = .error (.resp (ValidationError { fieldErrors := some (mapIssues issues) })) := by
    unfold parseStandardSchema
    rw [hstd]
    simp only [hver, hval, hout, hissues]
    simp
  refine ⟨?_, by simp, rfl⟩
  unfold stageValidateJSONInput
  rw [hschema]
  simp only [hnoerr, Option.isSome_none, Bool.false_eq_true, if_false, hbody]
  simp only [hparse, hfe]

def issuesC3 : List Issue :=
  [{ path := some [.plain (.str "a"), .obj (.num 0)], message := some "bad" }, {}]

def fC3 : Nat → Except String (SchemaOutcome Nat) :=
  fun _ => .ok { issues := some issuesC3 }

def schemaC3 : Schema Nat Nat := { standard := some { version := 1, validate := some fC3 } }

def cfgC3 : ControllerConfig Nat Nat Nat Nat :=
  { requiresAuthentication := false, inputSchema := some schemaC3 }

def reqC3 : Request Nat Nat := { params := none, headers := 0, jsonBody := .ok 0 }

/-- C3 (witness): two issues — one with a string/numeric path, one with no
path — rendered as `"a.[0]"` and `""`. -/
theorem C3_issue_field_errors_witness :
    issuesC3 ≠ []
    ∧ issuesC3.map specIssueFieldError
        = [{ field := "a.[0]", message := "bad" }, { field := "", message := "Invalid" }]
    ∧ (stageValidateJSONInput cfgC3 reqC3 ({} : ControllerState Nat Nat)).responseError
        = some (ValidationError { fieldErrors := some (issuesC3.map specIssueFieldError) }) := by
  refine ⟨by decide, by decide, ?_⟩
  exact (C3_issue_field_errors cfgC3 reqC3 {} schemaC3 _ fC3 0 _ issuesC3
    rfl rfl rfl rfl rfl rfl rfl rfl (by decide)).1

/-- C4: the extra-validation stage runs only when a body value exists; any
field errors the handler-supplied extra validator returns are appended
after the field errors already on the pending error, never discarding or
reordering them; with no pending error and at least one extra field error, a
fresh Validation error is created to hold them. -/
theorem C4_extra_validation_appends {T S : Type} (additional : T → List FieldError)
    (st : ControllerState T S) (v : T) (hjson : st.json = some v) :
    (∀ st2 : ControllerState T S, st2.json = none →
        stageAdditionalValidation additional st2 = st2)
    ∧ (∀ e, st.responseError = some e → additional v ≠ [] →
        (stageAdditionalValidation additional st).responseError
          = some { e with fieldErrors := some (e.fieldErrors.getD [] ++ additional v) })
    ∧ (st.responseError = none → additional v ≠ [] →
        (stageAdditionalValidation additional st).responseError
          = some (ValidationError { fieldErrors := some (additional v) })) := by
  refine ⟨fun st2 h => stageAdditionalValidation_skip additional st2 h, ?_, ?_⟩
  · intro e he hne
    unfold stageAdditionalValidation
    rw [hjson]
    simp only [he, Option.getD_some]
    have hlen : (additional v).length > 0 := by
      cases hadd : additional v with
      | nil => exact absurd hadd hne
      | cons a rest => simp
    rw [if_pos hlen]
    have hlen2 : (e.fieldErrors.getD [] ++ additional v).length > 0 := by
      rw [List.length_append]; omega
    rw [if_pos hlen2]
  · intro he hne
    unfold stageAdditionalValidation
    rw [hjson]
    simp only [he, Option.getD_none]
    have hlen : (additional v).length > 0 := by
      cases hadd : additional v with
      | nil => exact absurd hadd hne
      | cons a rest => simp
    rw [if_pos hlen]
    simp only [List.nil_append]
    rw [if_pos hlen]
    rfl

def stC4w : ControllerState Nat Nat := { json := some 7 }

def addC4w : Nat → List FieldError := fun _ => [{ field := "x", message := "must be even" }]

/-- C4 (witness): no pending error, one extra field error: a fresh
Validation error holds it. -/
theorem C4_extra_validation_witness :
    stC4w.json = some 7
    ∧ stC4w.responseError = none
    ∧ addC4w 7 ≠ []
    ∧ (stageAdditionalValidation addC4w stC4w).responseError
        = some (ValidationError { fieldErrors := some (addC4w 7) }) := by
  refine ⟨rfl, rfl, by decide, ?_⟩
  exact (C4_extra_validation_appends addC4w stC4w 7 rfl).2.2 rfl (by decide)

/-- C5: every ResponseError renders with its status code, a `message` key
holding its message, a `data` key exactly when a data object is set (its
JSON encoding) and a `fields` key exactly when field errors are set (their
JSON encoding); and the outermost boundary turns any non-ResponseError
throw into the constant generic InternalServerError/500 rendering, the
cause never reaching the body, while a thrown ResponseError renders
itself. -/
theorem C5_error_rendering_and_boundary (e : ResponseError) (cause : String) :
    e.toResponse.status = e.responseCode
    ∧ alookup e.toResponse.body "message" = some e.message
    ∧ alookup e.toResponse.body "data" = e.data.map jsonStringifyObj
    ∧ alookup e.toResponse.body "fields" = e.fieldErrors.map jsonStringifyFieldErrors
    ∧ routerBoundary (.error (.other cause)) = .rendered ((InternalServerError {}).toResponse)
    ∧ (InternalServerError {}).toResponse
        = { status := 500, body := [("message", "Internal Server Error")] }
    ∧ routerBoundary (.error (.resp e)) = .rendered e.toResponse := by
  refine ⟨rfl, ?_, ?_, ?_, rfl, by decide, rfl⟩
  all_goals cases hd : e.data <;> cases hf : e.fieldErrors <;>
    simp [ResponseError.toResponse, alookup, hd, hf]

/-- C6: a handler requiring authentication with no provider configured
responds Unauthorized/401 with message "Authentication provider not
configured", identically for any two requests regardless of their headers
(or anything else); with a provider configured whose session lookup yields
no session while authentication is required, the response is
Unauthorized/401 as well. -/
theorem C6_auth_required_unauthorized {H I T S : Type} (routerAuth : Option (H → Option S))
    (cfg : ControllerConfig H I T S) (additional : T → List FieldError)
    (run : RunLogic T S) (req req2 : Request H I)
    (hreq : cfg.requiresAuthentication = true) :
    (cfg.authProvider = none →
        handleRequest routerAuth cfg additional run req
          = .rendered ((UnauthorizedError
              { message := some "Authentication provider not configured" }).toResponse)
        ∧ handleRequest routerAuth cfg additional run req
          = handleRequest routerAuth cfg additional run req2
        ∧ ((UnauthorizedError
            { message := some "Authentication provider not configured" }).toResponse).status
          = 401)
    ∧ (∀ getSession, cfg.authProvider = some getSession → getSession req.headers = none →
        handleRequest routerAuth cfg additional run req
          = .rendered ((UnauthorizedError
              { message := some "You must be logged in to view this content" }).toResponse)
        ∧ ((UnauthorizedError
            { message := some "You must be logged in to view this content" }).toResponse).status
          = 401) := by
  constructor
  · intro hprov
    have key : ∀ r : Request H I, handleRequest routerAuth cfg additional run r
        = .rendered ((UnauthorizedError
            { message := some "Authentication provider not configured" }).toResponse) := by
      intro r
      apply handleRequest_error_after_auth
      rw [stageCheckAuthStatus_noProvider cfg r _ hreq hprov]
    exact ⟨key req, (key req).trans (key req2).symm, by decide⟩
  · intro getSession hprov hs
    refine ⟨?_, by decide⟩
    apply handleRequest_error_after_auth
    rw [stageCheckAuthStatus_noSession cfg req _ getSession hreq hprov hs]

def cfgC6 : ControllerConfig Nat Nat Nat Nat := { requiresAuthentication := true }

def reqC6a : Request Nat Nat := { params := none, headers := 1, jsonBody := .error () }

def reqC6b : Request Nat Nat := { params := none, headers := 2, jsonBody := .error () }

/-- C6 (witness): authentication required, no provider, two requests with
different headers: both get the same Unauthorized rendering. -/
theorem C6_auth_required_witness :
    cfgC6.requiresAuthentication = true
    ∧ handleRequest none cfgC6 addNone runNoop reqC6a
        = .rendered ((UnauthorizedError
            { message := some "Authentication provider not configured" }).toResponse)
    ∧ handleRequest none cfgC6 addNone runNoop reqC6a
        = handleRequest none cfgC6 addNone runNoop reqC6b := by
  have h := (C6_auth_required_unauthorized none cfgC6 addNone runNoop reqC6a reqC6b rfl).1 rfl
  exact ⟨rfl, h.1, h.2.1⟩

def schemaC7 : Schema Nat Nat := { standard := none }

/-- C7 (counterexample): a validator with no adapter capability fails with
message "Schema does not implement StandardSchemaV1", not the claimed
"Schema does not implement the expected adapter contract". -/
theorem C7_counterexample :
    parseStandardSchema (0 : Nat) schemaC7
      = .error (.resp (ValidationError
          { message := some "Schema does not implement StandardSchemaV1" }))
    ∧ (ValidationError
        { message := some "Schema does not implement StandardSchemaV1" }).message
      ≠ "Schema does not implement the expected adapter contract" :=
  ⟨rfl, by decide⟩

/-- C7 (amended): whenever the validator's adapter capability is absent,
mis-versioned, or not invocable, the schema adapter fails immediately with a
Validation error carrying the message "Schema does not implement
StandardSchemaV1" and no field errors. -/
theorem C7_adapter_probe_amended {I T : Type} (input : I) (schema : Schema I T)
    (h : adapterBad schema = true) :
    parseStandardSchema input schema
      = .error (.resp (ValidationError
          { message := some "Schema does not implement StandardSchemaV1" }))
    ∧ (ValidationError
        { message := some "Schema does not implement StandardSchemaV1" }).fieldErrors = none
    ∧ (ValidationError
        { message := some "Schema does not implement StandardSchemaV1" }).responseCode = 400 := by
  refine ⟨?_, rfl, rfl⟩
  unfold adapterBad at h
  unfold parseStandardSchema
  split
  · rfl
  · rename_i props hs
    rw [hs] at h
    have h2 : (decide (props.version ≠ 1) || props.validate.isNone) = true := h
    by_cases hv : props.version = 1
    · have hval : props.validate = none := by
        rw [hv] at h2
        simpa [Option.isNone_iff_eq_none] using h2
      rw [if_neg (fun hc => hc hv)]
      simp [hval]
    · rw [if_pos hv]

/-- C7 (witness): the amended theorem applied to a schema with no adapter
capability at all. -/
theorem C7_adapter_probe_witness :
    adapterBad schemaC7 = true
    ∧ parseStandardSchema (1 : Nat) schemaC7
        = .error (.resp (ValidationError
            { message := some "Schema does not implement StandardSchemaV1" })) :=
  ⟨by decide, (C7_adapter_probe_amended 1 schemaC7 (by decide)).1⟩

/-- C8: when parameter and authentication checks pass, the body parses, the
schema's validate outcome carries the value `v` and no issues, and the extra
validator returns no field errors, the controller reaches user logic with
its validated body equal to exactly `v` and no pending error; a user logic
probe observing the validated body confirms it runs with that value. -/
theorem C8_roundtrip {H I T S : Type} [DecidableEq T] (routerAuth : Option (H → Option S))
    (cfg : ControllerConfig H I T S) (additional : T → List FieldError) (req : Request H I)
    (schema : Schema I T) (props : StandardProps I T)
    (f : I → Except String (SchemaOutcome T)) (input : I)
    (outcome : SchemaOutcome T) (v : T)
    (hschema : cfg.inputSchema = some schema)
    (hstd : schema.standard = some props)
    (hver : props.version = 1)
    (hval : props.validate = some f)
    (hbody : req.jsonBody = .ok input)
    (hout : f input = .ok outcome)
    (hissues : outcome.issues = none)
    (hvalue : outcome.value = some v)
    (hparams : paramCheckFails cfg req = false)
    (hauth : authOk cfg req = true)
    (hextra : additional v = []) :
    (∀ st0 : ControllerState T S, st0.json = none → st0.responseError = none →
        (initController cfg additional req st0).json = some v
        ∧ (initController cfg additional req st0).responseError = none)
    ∧ handleRequest routerAuth cfg additional
        (fun st => .ok (st, if st.json = some v then .userResp 1 else .userResp 0)) req
      = .userResp 1 := by
  have hparse : parseStandardSchema input schema = .ok (some v) := by
    unfold parseStandardSchema
    rw [hstd]
    simp only [hver, hval, hout, hissues, hvalue]
    simp
  have main : ∀ st0 : ControllerState T S, st0.json = none → st0.responseError = none →
      ∃ stf, initController cfg additional req st0 = stf
        ∧ stf.json = some v ∧ stf.responseError = none := by
    intro st0 h0j h0e
    set st1 := stageValidateUUIDs cfg req st0 with hst1
    have h1e : st1.responseError = none := by
      rw [hst1, stageValidateUUIDs_error_of_nofail cfg req st0 hparams, h0e]
    have h1j : st1.json = none := by rw [hst1, stageValidateUUIDs_json, h0j]
    set st2 := stageCheckAuthStatus cfg req st1 with hst2
    obtain ⟨h2e, h2j, h2p⟩ := stageCheckAuthStatus_of_authOk cfg req st1 hauth
    have h2e' : st2.responseError = none := by rw [hst2, h2e, h1e]
    have h2j' : st2.json = none := by rw [hst2, h2j, h1j]
    have h3 : stageValidateJSONInput cfg req st2 = { st2 with json := some v } := by
      unfold stageValidateJSONInput
      rw [hschema]
      simp only [h2e', Option.isSome_none, Bool.false_eq_true, if_false, hbody]
      simp only [hparse]
    have h4 : stageAdditionalValidation additional { st2 with json := some v }
        = { st2 with json := some v } := by
      unfold stageAdditionalValidation
      simp only []
      simp [h2e', hextra]
    refine ⟨{ st2 with json := some v }, ?_, rfl, h2e'⟩
    unfold initController
    rw [← hst1, ← hst2, h3, h4]
  constructor
  · intro st0 h0j h0e
    obtain ⟨stf, hfin, hj, he⟩ := main st0 h0j h0e
    rw [hfin]
    exact ⟨hj, he⟩
  · obtain ⟨stf, hfin, hj, he⟩ := main (initialState routerAuth req.headers) rfl rfl
    unfold handleRequest invoke
    rw [hfin]
    unfold respond
    simp [he, hj]
    rfl

def fC8 : Nat → Except String (SchemaOutcome Nat) := fun n => .ok { value := some (n + 1) }

def schemaC8 : Schema Nat Nat := { standard := some { version := 1, validate := some fC8 } }

def cfgC8 : ControllerConfig Nat Nat Nat Nat :=
  { requiresAuthentication := false, inputSchema := some schemaC8 }

def reqC8 : Request Nat Nat := { params := none, headers := 0, jsonBody := .ok 41 }

/-- C8 (witness): a schema mapping the parsed body 41 to the value 42; the
probe run logic observes exactly 42 as the validated body. -/
theorem C8_roundtrip_witness :
    paramCheckFails cfgC8 reqC8 = false
    ∧ authOk cfgC8 reqC8 = true
    ∧ handleRequest none cfgC8 addNone
        (fun st => .ok (st, if st.json = some 42 then .userResp 1 else .userResp 0)) reqC8
      = .userResp 1 := by
  refine ⟨by decide, by decide, ?_⟩
  exact (C8_roundtrip none cfgC8 addNone reqC8 schemaC8 _ fC8 41 _ 42
    rfl rfl rfl rfl rfl rfl rfl rfl (by decide) (by decide) rfl).2

/-- Whether the route table already binds the (path, method) pair. -/
def tableHas (routes : List (String × List (Method × String))) (k : String × Method) : Bool :=
  (alookup ((alookup routes k.1).getD []) k.2).isSome

theorem tableHas_insert_of_has (routes : List (String × List (Method × String)))
    (d : Discovered) (x : String × Method) (hx : tableHas routes x = true) :
    tableHas (objInsert routes d.path
      (((alookup routes d.path).getD []) ++ [(d.method, d.handler)])) x = true := by
  unfold tableHas at hx ⊢
  rw [alookup_objInsert]
  by_cases hp : x.1 = d.path
  · rw [if_pos hp]
    rw [hp] at hx
    simp only [Option.getD_some]
    rw [alookup_append]
    cases hl : alookup ((alookup routes d.path).getD []) x.2 with
    | none => rw [hl] at hx; simp at hx
    | some w => simp
  · rw [if_neg hp]
    exact hx

theorem tableHas_insert_self (routes : List (String × List (Method × String)))
    (d : Discovered)
    (hnot : (alookup ((alookup routes d.path).getD []) d.method).isSome = false) :
    tableHas (objInsert routes d.path
      (((alookup routes d.path).getD []) ++ [(d.method, d.handler)])) (routeKey d) = true := by
  unfold tableHas routeKey
  dsimp only
  rw [alookup_objInsert, if_pos rfl]
  simp only [Option.getD_some]
  rw [alookup_append]
  cases hl : alookup ((alookup routes d.path).getD []) d.method with
  | none => simp [alookup]
  | some w => rw [hl] at hnot; simp at hnot

theorem parseRoutesLoop_err_of_has (ds : List Discovered) (d' : Discovered) :
    d' ∈ ds → ∀ routes, tableHas routes (routeKey d') = true →
      (parseRoutesLoop ds routes).isErr = true := by
  induction ds with
  | nil => intro h; cases h
  | cons d rest ih =>
    intro hmem routes hhas
    unfold parseRoutesLoop
    by_cases hdup : (alookup ((alookup routes d.path).getD []) d.method).isSome = true
    · simp [hdup, Except.isErr]
    · simp only [Bool.not_eq_true] at hdup
      simp only [hdup, Bool.false_eq_true, if_false]
      rcases List.mem_cons.mp hmem with hd | hrest
      · subst hd
        unfold tableHas routeKey at hhas
        dsimp only at hhas
        rw [hhas] at hdup
        cases hdup
      · exact ih hrest _ (tableHas_insert_of_has routes d (routeKey d') hhas)

theorem parseRoutesLoop_err_of_dup :
    ∀ ds : List Discovered, ¬ (ds.map routeKey).Nodup →
      ∀ routes, (parseRoutesLoop ds routes).isErr = true := by
  intro ds
  induction ds with
  | nil => intro h; exact absurd List.nodup_nil h
  | cons d rest ih =>
    intro h routes
    rw [List.map_cons, List.nodup_cons] at h
    push_neg at h
    unfold parseRoutesLoop
    by_cases hdup : (alookup ((alookup routes d.path).getD []) d.method).isSome = true
    · simp [hdup, Except.isErr]
    · simp only [Bool.not_eq_true] at hdup
      simp only [hdup, Bool.false_eq_true, if_false]
      by_cases hmem : routeKey d ∈ rest.map routeKey
      · obtain ⟨d', hd', hkey⟩ := List.mem_map.mp hmem
        apply parseRoutesLoop_err_of_has rest d' hd'
        rw [hkey]
        exact tableHas_insert_self routes d hdup
      · exact ih (h hmem) _

/-- C9: a route configuration in which two discovered files resolve to the
same (path, method) pair makes route-table construction fail fatally: the
registration loop throws and no table is produced. -/
theorem C9_duplicate_route_fatal (ds : List Discovered)
    (h : ¬ (ds.map routeKey).Nodup) :
    (parseRoutes ds).isErr = true
    ∧ ∀ t, parseRoutes ds ≠ .ok t := by
  have herr : (parseRoutes ds).isErr = true := parseRoutesLoop_err_of_dup ds h []
  refine ⟨herr, ?_⟩
  intro t ht
  rw [ht] at herr
  cases herr

def dsC9 : List Discovered :=
  [{ path := "/items", handler := "routes/items/get.ts", method := .get },
   { path := "/items", handler := "routes/other/items/get.ts", method := .get }]

/-- C9 (witness): two `get.ts` files both resolving to path `/items`:
construction errors. -/
theorem C9_duplicate_route_witness :
    ¬ (dsC9.map routeKey).Nodup ∧ (parseRoutes dsC9).isErr = true :=
  ⟨by decide, (C9_duplicate_route_fatal dsC9 (by decide)).1⟩

/-- C10: when user logic, starting from an error-free initialized state, sets
a pending ResponseError through `failWith` and still returns a response,
`invoke` returns the rendering of that ResponseError, not the returned
response. -/
theorem C10_failwith_wins {H I T S : Type} (cfg : ControllerConfig H I T S)
    (additional : T → List FieldError) (run : RunLogic T S) (req : Request H I)
    (st0 stx : ControllerState T S) (e : ResponseError) (resp : JsResponse)
    (hinit : (initController cfg additional req st0).responseError = none)
    (hrun : run (initController cfg additional req st0) = .ok ((failWith stx e).1, resp)) :
    invoke cfg additional run req st0 = .ok (.rendered e.toResponse) := by
  unfold invoke respond
  simp [hinit, hrun, failWith]

def cfgC10 : ControllerConfig Nat Nat Nat Nat := { requiresAuthentication := false }

def reqC10 : Request Nat Nat := { params := none, headers := 0, jsonBody := .error () }

def runC10 : RunLogic Nat Nat := fun st => .ok ((failWith st (ConflictError {})).1, .userResp 5)

/-- C10 (witness): run fails with a ConflictError yet returns a different
response; invoke renders the ConflictError. -/
theorem C10_failwith_wins_witness :
    (initController cfgC10 addNone reqC10 ({} : ControllerState Nat Nat)).responseError = none
    ∧ invoke cfgC10 addNone runC10 reqC10 {} = .ok (.rendered (ConflictError {}).toResponse)
    ∧ (JsResponse.rendered (ConflictError {}).toResponse) ≠ .userResp 5 := by
  refine ⟨by decide, ?_, by decide⟩
  exact C10_failwith_wins cfgC10 addNone runC10 reqC10 {}
    (initController cfgC10 addNone reqC10 {}) (ConflictError {}) (.userResp 5)
    (by decide) rfl
